import Mathlib

/-!
Verification of the broccoli grammar-parsing engine.

This file gives a shallow embedding of the recursive-descent parser found in
`src/parser/constructs.rs` (the `Construct` grammar rules) together with the
AST node model of `src/instruction/`.  The input cursor is a `List Char`; a
parsing function maps a cursor to `PResult`, mirroring nom's
`IResult<&str, T>`: `ok rest val` is `Ok((rest, val))`, `err` is a
recoverable `nom::Err::Error`, and `fatal` models a process abort (the
`unwrap()` panic in `Construct::jinko_inst`).

The rule bodies from `constructs.rs` are translated one-to-one in the
`ConstructP` namespace, parameterized by the parser used for the recursive
`Construct::instruction` calls; `Construct.instruction fuel` ties the
recursive knot, with `fuel` bounding the recursion depth (the Rust original
recurses on the native call stack).  The `Token` lexer, the
`ConstantConstruct` literal rules, the `ShuntingYard` expression engine and
the `JkInst` directive set are not part of the provided sources and are
modelled from the specification, as marked on their doc comments.
-/

namespace Broccoli

/-- Result of a parsing function, mirroring nom's `IResult<&str, T>`:
`ok rest val` for success, `err` for a recoverable `nom::Err::Error`, and
`fatal` for an irrecoverable process abort (a Rust panic). -/
inductive PResult (α : Type) where
  | ok (rest : List Char) (val : α)
  | err
  | fatal
  deriving DecidableEq, Repr

/-- A parsing function from a remaining-input cursor. -/
abbrev Parser (α : Type) : Type := List Char → PResult α

/-- Sequencing: thread the advancing cursor, aborting on `err` or `fatal`
exactly as Rust's `?` operator propagates `Err`. -/
def pbind {α β : Type} (r : PResult α) (f : List Char → α → PResult β) : PResult β :=
  match r with
  | .ok rest v => f rest v
  | .err => .err
  | .fatal => .fatal

/-- Map over a successful parse result (used where a rule wraps a typed node
into `Box<dyn Instruction>`). -/
def pmap {α β : Type} (p : Parser α) (f : α → β) : Parser β :=
  fun i => pbind (p i) (fun rest v => .ok rest (f v))

/-- nom's `opt` combinator: recover from `err` with `none`; a panic is not
caught. -/
def popt {α : Type} (p : Parser α) : Parser (Option α) :=
  fun i =>
    match p i with
    | .ok rest v => .ok rest (some v)
    | .err => .ok i none
    | .fatal => .fatal

/-- nom's ordered alternation over a list of parsers: the first alternative
that does not return a recoverable error wins, and every alternative is
attempted at exactly the same cursor. -/
def altList {α : Type} : List (Parser α) → Parser α
  | [] => fun _ => .err
  | p :: ps => fun i =>
    match p i with
    | .err => altList ps i
    | r => r

/-- nom's `many0` combinator, with fuel for termination: apply `p` repeatedly
until it fails, collecting results.  As in nom, a successful parse that
consumes no input makes `many0` return an error (infinite-loop protection). -/
def many0 {α : Type} (p : Parser α) : Nat → Parser (List α)
  | 0 => fun _ => .err
  | fuel + 1 => fun i =>
    match p i with
    | .err => .ok i []
    | .fatal => .fatal
    | .ok rest v =>
      if rest = i then .err
      else
        match many0 p fuel rest with
        | .ok rest2 vs => .ok rest2 (v :: vs)
        | .err => .err
        | .fatal => .fatal

/-- Recognize a fixed character sequence, like nom's `tag`. -/
def tag (s : List Char) : Parser Unit :=
  fun i => if s.isPrefixOf i then .ok (i.drop s.length) () else .err

/-- Insignificant whitespace characters. -/
def isSpaceChar (c : Char) : Bool :=
  c = ' ' || c = '\n' || c = '\t' || c = '\r'

/-- Characters allowed in a symbol name.  The repository's own tests force
digits to be allowed anywhere (`{ 12a; }` parses as one instruction) and the
underscore to be allowed (`mut_x_99`). -/
def isIdentChar (c : Char) : Bool :=
  c.isAlphanum || c = '_'

/-- Drop the leading insignificant input from a cursor. -/
def consumeExtra (i : List Char) : List Char :=
  i.dropWhile isSpaceChar

/-- A keyword token: the fixed word, not followed by an identifier character
(so that `mut_x_99` is an identifier and not the keyword `mut`, as the
repository's tests require). -/
def kwTok (s : List Char) : Parser Unit :=
  fun i =>
    match tag s i with
    | .ok rest _ =>
      match rest with
      | [] => .ok rest ()
      | c :: _ => if isIdentChar c then .err else .ok rest ()
    | .err => .err
    | .fatal => .fatal

namespace Token

/-- Modelled from the spec: the lexer "exposes an explicit skip-insignificant
input operation (whitespace, comments)" that never fails (`Token` is not in
the provided sources).  The spec fixes no comment syntax and no claim
exercises comments, so only whitespace is elided. -/
def maybe_consume_extra : Parser Unit :=
  fun i => .ok (consumeExtra i) ()

/-- Modelled from the spec: consume at least one whitespace character
(`Token::consume_whitespaces`, missing from the sources, is used under `opt`
around `=` in `Construct::var_assignment`). -/
def consume_whitespaces : Parser Unit :=
  fun i =>
    match i with
    | [] => .err
    | c :: _ => if isSpaceChar c then .ok (consumeExtra i) () else .err

/-- Modelled from the spec: an identifier is a maximal non-empty run of
symbol-name characters ("identifiers (symbol names)", §4.1); the repository's
tests force `12a`, `mut_x_99` to be identifiers. -/
def identifier : Parser (List Char) :=
  fun i =>
    if (i.takeWhile isIdentChar).isEmpty then .err
    else .ok (i.drop (i.takeWhile isIdentChar).length) (i.takeWhile isIdentChar)

/-- Modelled from the spec: punctuation `(` (§4.1, missing `Token` module). -/
def left_parenthesis : Parser Unit := tag ['(']

/-- Modelled from the spec: punctuation `)`. -/
def right_parenthesis : Parser Unit := tag [')']

/-- Modelled from the spec: punctuation `{`. -/
def left_curly_bracket : Parser Unit := tag ['{']

/-- Modelled from the spec: punctuation `}`. -/
def right_curly_bracket : Parser Unit := tag ['}']

/-- Modelled from the spec: punctuation `,`. -/
def comma : Parser Unit := tag [',']

/-- Modelled from the spec: punctuation `:`. -/
def colon : Parser Unit := tag [':']

/-- Modelled from the spec: punctuation `;`. -/
def semicolon : Parser Unit := tag [';']

/-- Modelled from the spec: punctuation `.`. -/
def dot : Parser Unit := tag ['.']

/-- Modelled from the spec: punctuation `=`. -/
def equal : Parser Unit := tag ['=']

/-- Modelled from the spec: punctuation `->`. -/
def arrow : Parser Unit := tag ['-', '>']

/-- Modelled from the spec: punctuation `@`. -/
def at_sign : Parser Unit := tag ['@']

/-- Modelled from the spec: keyword `func`. -/
def func_tok : Parser Unit := kwTok "func".toList

/-- Modelled from the spec: keyword `ext`. -/
def ext_tok : Parser Unit := kwTok "ext".toList

/-- Modelled from the spec: keyword `test`. -/
def test_tok : Parser Unit := kwTok "test".toList

/-- Modelled from the spec: keyword `mock`. -/
def mock_tok : Parser Unit := kwTok "mock".toList

/-- Modelled from the spec: keyword `type`. -/
def _type_tok : Parser Unit := kwTok "type".toList

/-- Modelled from the spec: keyword `mut`; the boundary check is forced by
the repository test where `mut_x_99 = 129` must not be mutable. -/
def mut_tok : Parser Unit := kwTok "mut".toList

/-- Modelled from the spec: keyword `if`. -/
def if_tok : Parser Unit := kwTok "if".toList

/-- Modelled from the spec: keyword `else`. -/
def else_tok : Parser Unit := kwTok "else".toList

/-- Modelled from the spec: keyword `audit`. -/
def audit_tok : Parser Unit := kwTok "audit".toList

/-- Modelled from the spec: keyword `loop`. -/
def loop_tok : Parser Unit := kwTok "loop".toList

/-- Modelled from the spec: keyword `while`. -/
def while_tok : Parser Unit := kwTok "while".toList

/-- Modelled from the spec: keyword `for`. -/
def for_tok : Parser Unit := kwTok "for".toList

/-- Modelled from the spec: keyword `in`. -/
def in_tok : Parser Unit := kwTok "in".toList

/-- Modelled from the spec: keyword `incl`. -/
def incl_tok : Parser Unit := kwTok "incl".toList

/-- Modelled from the spec: keyword `as`. -/
def as_tok : Parser Unit := kwTok "as".toList

/-- Modelled from the spec: keyword `return`. -/
def return_tok : Parser Unit := kwTok "return".toList

end Token

/-- What "kind" of function is defined (`src/instruction/function_declaration.rs`). -/
inductive FunctionKind where
  | Unknown
  | Func
  | Ext
  | Test
  | Mock
  deriving DecidableEq, Repr

/-- A declared argument: a name and a type (`FunctionDecArg` / `DecArg`). -/
structure DecArg where
  name : List Char
  ty : List Char
  deriving DecidableEq, Repr

/-- A closed enumeration of interpreter directives.  Modelled from the spec:
`JkInst` is not in the provided sources; the spec describes "a closed
enumeration of directive names (e.g. a dump current state directive, a quit
directive)" and the repository tests name `JkInst::Dump` (`@dump()`) and
`JkInst::Quit` (`@quit(...)`). -/
inductive JkInst where
  | Dump
  | Quit
  deriving DecidableEq, Repr

/-- Modelled from the spec: `JkInst::from_str` resolves a directive name
against the closed built-in set, `None` for an unrecognized name. -/
def JkInst.from_str (s : List Char) : Option JkInst :=
  if s = "dump".toList then some .Dump
  else if s = "quit".toList then some .Quit
  else none

/-- The polymorphic AST node produced by parsing (`Box<dyn Instruction>`).
Every concrete construct of `src/instruction/` is one variant; a `Block` is
the `blockNode` variant, holding its owned statements and the optional
trailing value node (which the Rust `Block` stores in a separate field, so no
statement can follow it). -/
inductive Instruction where
  | intLit (n : Int)
  | floatLit (raw : List Char)
  | boolLit (b : Bool)
  | charLit (c : Char)
  | strLit (s : List Char)
  | var (name : List Char)
  | varAssign (mutable : Bool) (symbol : List Char) (value : Instruction)
  | functionCallNode (name : List Char) (args : List Instruction)
  | methodCallNode (caller : Instruction) (method : Instruction)
  | functionDecNode (name : List Char) (ty : Option (List Char)) (kind : FunctionKind)
      (args : List DecArg) (block : Option Instruction)
  | typeDecNode (name : List Char) (fields : List DecArg)
  | typeInstNode (name : List Char) (fields : List Instruction)
  | blockNode (stmts : List Instruction) (last : Option Instruction)
  | ifElseNode (cond : Instruction) (thenBlock : Instruction) (elseBlock : Option Instruction)
  | loopLoop (body : Instruction)
  | loopWhile (cond : Instruction) (body : Instruction)
  | loopFor (loopVariable : Instruction) (iterable : Instruction) (body : Instruction)
  | inclNode (path : List Char) (rename : Option (List Char))
  | jkInstNode (inst : JkInst)
  | auditNode (body : Instruction)
  | retNode (value : Option Instruction)
  | binOp (op : List Char) (lhs : Instruction) (rhs : Instruction)

/-- A function call node as returned by `Construct::function_call`: a callee
name and the ordered argument list. -/
structure FunctionCall where
  name : List Char
  args : List Instruction

/-- Wrap a `FunctionCall` into the polymorphic node type. -/
def FunctionCall.box (fc : FunctionCall) : Instruction :=
  .functionCallNode fc.name fc.args

/-- A function declaration node (`FunctionDec` of
`src/instruction/function_declaration.rs`): name, optional return type,
declaration kind, arguments, and the optional body block (absent for `Ext`). -/
structure FunctionDec where
  name : List Char
  ty : Option (List Char)
  kind : FunctionKind
  args : List DecArg
  block : Option Instruction

/-- Wrap a `FunctionDec` into the polymorphic node type. -/
def FunctionDec.box (fd : FunctionDec) : Instruction :=
  .functionDecNode fd.name fd.ty fd.kind fd.args fd.block

/-- A type declaration node (`TypeDec`): name and ordered field list. -/
structure TypeDec where
  name : List Char
  fields : List DecArg
  deriving DecidableEq, Repr

/-- Wrap a `TypeDec` into the polymorphic node type. -/
def TypeDec.box (td : TypeDec) : Instruction :=
  .typeDecNode td.name td.fields

namespace ConstantConstruct

/-- Modelled from the spec: a single-character literal `'c'`
(`ConstantConstruct` is not in the provided sources; literal forms from
§4.1/§6). -/
def char_constant : Parser Instruction :=
  fun i =>
    match i with
    | q1 :: c :: q2 :: rest =>
      if q1 = '\'' && q2 = '\'' then .ok rest (.charLit c) else .err
    | _ => .err

/-- Modelled from the spec: a string literal `"..."`. -/
def string_constant : Parser Instruction :=
  fun i =>
    match i with
    | c :: rest =>
      if c = '"' then
        let s := rest.takeWhile (fun d => d ≠ '"')
        match rest.drop s.length with
        | d :: rest2 => if d = '"' then .ok rest2 (.strLit s) else .err
        | [] => .err
      else .err
    | [] => .err

/-- Modelled from the spec: a floating-point literal `<num>?.<num>?`
(a digit run, a dot, a digit run); the numeric value is kept as raw text
since no claim consumes it. -/
def float_constant : Parser Instruction :=
  fun i =>
    let intPart := i.takeWhile Char.isDigit
    if intPart.isEmpty then .err
    else
      match i.drop intPart.length with
      | c :: rest =>
        if c = '.' then
          let fracPart := rest.takeWhile Char.isDigit
          if fracPart.isEmpty then .err
          else .ok (rest.drop fracPart.length) (.floatLit (intPart ++ '.' :: fracPart))
        else .err
      | [] => .err

/-- Digit run to numeric value. -/
def digitsToNat (s : List Char) : Nat :=
  s.foldl (fun acc c => acc * 10 + (c.toNat - 48)) 0

/-- Modelled from the spec: an integer literal, a non-empty digit run
("signed 64-bit integers"; the sign is not part of the literal token,
`-` being an operator). -/
def int_constant : Parser Instruction :=
  fun i =>
    let s := i.takeWhile Char.isDigit
    if s.isEmpty then .err
    else .ok (i.drop s.length) (.intLit (digitsToNat s))

/-- Modelled from the spec: a boolean literal `true` or `false`. -/
def bool_constant : Parser Instruction :=
  fun i =>
    match kwTok "true".toList i with
    | .ok rest _ => .ok rest (.boolLit true)
    | _ =>
      match kwTok "false".toList i with
      | .ok rest _ => .ok rest (.boolLit false)
      | _ => .err

end ConstantConstruct

namespace ConstructP

/-- `Construct::constant`: ordered alternation over the literal forms. -/
def constant : Parser Instruction :=
  altList [ConstantConstruct.char_constant, ConstantConstruct.string_constant,
    ConstantConstruct.float_constant, ConstantConstruct.int_constant,
    ConstantConstruct.bool_constant]

/-- `Construct::function_call_no_args`: `<identifier> ( )`. -/
def function_call_no_args : Parser FunctionCall :=
  fun i =>
    pbind (Token.identifier i) fun i fn_id =>
    pbind (Token.left_parenthesis i) fun i _ =>
    pbind (Token.maybe_consume_extra i) fun i _ =>
    pbind (Token.right_parenthesis i) fun i _ =>
    .ok i { name := fn_id, args := [] }

/-- `Construct::arg`: one argument, consuming the whitespace before and
after it; `instr` is the parser for the recursive `Construct::instruction`
call. -/
def arg (instr : Parser Instruction) : Parser Instruction :=
  fun i =>
    pbind (Token.maybe_consume_extra i) fun i _ =>
    pbind (instr i) fun i c =>
    pbind (Token.maybe_consume_extra i) fun i _ =>
    .ok i c

/-- `Construct::arg_and_comma`: an argument and the comma that follows it. -/
def arg_and_comma (instr : Parser Instruction) : Parser Instruction :=
  fun i =>
    pbind (instr i) fun i c =>
    pbind (Token.comma i) fun i _ =>
    .ok i c

/-- `Construct::args_list`: zero or more `argument ,`, then exactly one last
argument without a comma. -/
def args_list (instr : Parser Instruction) : Parser (List Instruction) :=
  fun i =>
    pbind (many0 (arg_and_comma instr) (i.length + 1) i) fun i arg_vec =>
    pbind (arg instr i) fun i last_arg =>
    .ok i (arg_vec ++ [last_arg])

/-- `Construct::function_call_args`: `<identifier> ( <args_list> )`. -/
def function_call_args (instr : Parser Instruction) : Parser FunctionCall :=
  fun i =>
    pbind (Token.identifier i) fun i fn_id =>
    pbind (Token.left_parenthesis i) fun i _ =>
    pbind (args_list instr i) fun i arg_vec =>
    pbind (Token.right_parenthesis i) fun i _ =>
    .ok i { name := fn_id, args := arg_vec }

/-- `Construct::function_call`: the empty form is tried before the non-empty
form. -/
def function_call (instr : Parser Instruction) : Parser FunctionCall :=
  altList [function_call_no_args, function_call_args instr]

/-- `Construct::type_instantiation`: `<identifier> { <args_list> }`. -/
def type_instantiation (instr : Parser Instruction) : Parser Instruction :=
  fun i =>
    pbind (Token.identifier i) fun i type_id =>
    pbind (Token.maybe_consume_extra i) fun i _ =>
    pbind (Token.left_curly_bracket i) fun i _ =>
    pbind (args_list instr i) fun i arg_vec =>
    pbind (Token.right_curly_bracket i) fun i _ =>
    .ok i (.typeInstNode type_id arg_vec)

/-- `Construct::var_assignment`: `[mut] <identifier> = <instruction>`. -/
def var_assignment (instr : Parser Instruction) : Parser Instruction :=
  fun i =>
    pbind (popt Token.mut_tok i) fun i mut_opt =>
    pbind (Token.maybe_consume_extra i) fun i _ =>
    pbind (Token.identifier i) fun i id =>
    pbind (popt Token.consume_whitespaces i) fun i _ =>
    pbind (Token.equal i) fun i _ =>
    pbind (popt Token.consume_whitespaces i) fun i _ =>
    pbind (instr i) fun i value =>
    .ok i (.varAssign mut_opt.isSome id value)

/-- `Construct::variable`: a bare identifier. -/
def variableRule : Parser Instruction :=
  fun i =>
    pbind (Token.identifier i) fun i name =>
    .ok i (.var name)

/-- `Construct::stmt_semicolon`: an instruction and the semicolon that
follows. -/
def stmt_semicolon (instr : Parser Instruction) : Parser Instruction :=
  fun i =>
    pbind (Token.maybe_consume_extra i) fun i _ =>
    pbind (instr i) fun i expr =>
    pbind (Token.maybe_consume_extra i) fun i _ =>
    pbind (Token.semicolon i) fun i _ =>
    pbind (Token.maybe_consume_extra i) fun i _ =>
    .ok i expr

/-- `Construct::stmts_and_maybe_last`: many statements and a possible
trailing instruction. -/
def stmts_and_maybe_last (instr : Parser Instruction) :
    Parser (List Instruction × Option Instruction) :=
  fun i =>
    pbind (many0 (stmt_semicolon instr) (i.length + 1) i) fun i instructions =>
    pbind (popt instr i) fun i last_expr =>
    .ok i (instructions, last_expr)

/-- `Construct::block_instructions`: the brace-delimited body. -/
def block_instructions (instr : Parser Instruction) :
    Parser (List Instruction × Option Instruction) :=
  fun i =>
    pbind (Token.left_curly_bracket i) fun i _ =>
    pbind (Token.maybe_consume_extra i) fun i _ =>
    pbind (stmts_and_maybe_last instr i) fun i res =>
    pbind (Token.maybe_consume_extra i) fun i _ =>
    pbind (Token.right_curly_bracket i) fun i _ =>
    .ok i res

/-- `Construct::block`: build the `Block` node from the parsed statements
and optional trailing value. -/
def block (instr : Parser Instruction) : Parser Instruction :=
  fun i =>
    pbind (block_instructions instr i) fun i res =>
    .ok i (.blockNode res.1 res.2)

/-- `Construct::args_dec_empty`: `( )`. -/
def args_dec_empty : Parser (List DecArg) :=
  fun i =>
    pbind (Token.left_parenthesis i) fun i _ =>
    pbind (Token.maybe_consume_extra i) fun i _ =>
    pbind (Token.right_parenthesis i) fun i _ =>
    .ok i []

/-- `Construct::identifier_type`: `<identifier> : <type>`. -/
def identifier_type : Parser DecArg :=
  fun i =>
    pbind (Token.identifier i) fun i id =>
    pbind (Token.maybe_consume_extra i) fun i _ =>
    pbind (Token.colon i) fun i _ =>
    pbind (Token.maybe_consume_extra i) fun i _ =>
    pbind (Token.identifier i) fun i ty =>
    .ok i { name := id, ty := ty }

/-- `Construct::identifier_type_comma`: `<identifier> : <type> ,`. -/
def identifier_type_comma : Parser DecArg :=
  fun i =>
    pbind (Token.maybe_consume_extra i) fun i _ =>
    pbind (identifier_type i) fun i a =>
    pbind (Token.maybe_consume_extra i) fun i _ =>
    pbind (Token.comma i) fun i _ =>
    .ok i a

/-- `Construct::args_dec_non_empty`: a parenthesized, non-empty typed
argument list whose last element has no comma. -/
def args_dec_non_empty : Parser (List DecArg) :=
  fun i =>
    pbind (Token.left_parenthesis i) fun i _ =>
    pbind (Token.maybe_consume_extra i) fun i _ =>
    pbind (many0 identifier_type_comma (i.length + 1) i) fun i args =>
    pbind (Token.maybe_consume_extra i) fun i _ =>
    pbind (identifier_type i) fun i last_arg =>
    pbind (Token.right_parenthesis i) fun i _ =>
    .ok i (args ++ [last_arg])

/-- `Construct::args_dec`: empty form first, then the non-empty form. -/
def args_dec : Parser (List DecArg) :=
  altList [args_dec_empty, args_dec_non_empty]

/-- `Construct::return_type_void`: confirm that no arrow is present. -/
def return_type_void : Parser (Option (List Char)) :=
  fun i =>
    pbind (Token.maybe_consume_extra i) fun i _ =>
    pbind (popt Token.arrow i) fun i arrowOpt =>
    match arrowOpt with
    | some _ => .err
    | none => .ok i none

/-- `Construct::return_type_non_void`: `-> <type>`. -/
def return_type_non_void : Parser (Option (List Char)) :=
  fun i =>
    pbind (Token.maybe_consume_extra i) fun i _ =>
    pbind (Token.arrow i) fun i _ =>
    pbind (Token.maybe_consume_extra i) fun i _ =>
    pbind (Token.identifier i) fun i ty =>
    pbind (Token.maybe_consume_extra i) fun i _ =>
    .ok i (some ty)

/-- `Construct::return_type`: non-void tried first. -/
def return_type : Parser (Option (List Char)) :=
  altList [return_type_non_void, return_type_void]

/-- `Construct::function_content`: the shared declaration signature and
body; builds the `FunctionDec` with kind still `Unknown`. -/
def function_content (instr : Parser Instruction) : Parser FunctionDec :=
  fun i =>
    pbind (Token.maybe_consume_extra i) fun i _ =>
    pbind (Token.identifier i) fun i fn_name =>
    pbind (Token.maybe_consume_extra i) fun i _ =>
    pbind (args_dec i) fun i args =>
    pbind (return_type i) fun i ty =>
    pbind (block instr i) fun i blk =>
    .ok i { name := fn_name, ty := ty, kind := .Unknown, args := args, block := some blk }

/-- `Construct::function_declaration`: `func` then the shared content, kind
set to `Func`. -/
def function_declaration (instr : Parser Instruction) : Parser FunctionDec :=
  fun i =>
    pbind (Token.func_tok i) fun i _ =>
    pbind (function_content instr i) fun i f =>
    .ok i { f with kind := .Func }

/-- `Construct::test_declaration`: `test` then name, argument declarations,
the forced-void return-type rule, and a block; kind set to `Test`. -/
def test_declaration (instr : Parser Instruction) : Parser FunctionDec :=
  fun i =>
    pbind (Token.test_tok i) fun i _ =>
    pbind (Token.maybe_consume_extra i) fun i _ =>
    pbind (Token.identifier i) fun i fn_name =>
    pbind (Token.maybe_consume_extra i) fun i _ =>
    pbind (args_dec i) fun i args =>
    pbind (return_type_void i) fun i ty =>
    pbind (block instr i) fun i blk =>
    .ok i { name := fn_name, ty := ty, kind := .Test, args := args, block := some blk }

/-- `Construct::mock_declaration`: `mock` then the shared content, kind set
to `Mock`. -/
def mock_declaration (instr : Parser Instruction) : Parser FunctionDec :=
  fun i =>
    pbind (Token.mock_tok i) fun i _ =>
    pbind (function_content instr i) fun i f =>
    .ok i { f with kind := .Mock }

/-- `Construct::ext_declaration`: `ext func <signature> ;` — no block is
ever attached, and the kind is set to `Ext`. -/
def ext_declaration : Parser FunctionDec :=
  fun i =>
    pbind (Token.ext_tok i) fun i _ =>
    pbind (Token.maybe_consume_extra i) fun i _ =>
    pbind (Token.func_tok i) fun i _ =>
    pbind (Token.maybe_consume_extra i) fun i _ =>
    pbind (Token.identifier i) fun i fn_name =>
    pbind (Token.maybe_consume_extra i) fun i _ =>
    pbind (args_dec i) fun i args =>
    pbind (return_type i) fun i ty =>
    pbind (Token.maybe_consume_extra i) fun i _ =>
    pbind (Token.semicolon i) fun i _ =>
    .ok i { name := fn_name, ty := ty, kind := .Ext, args := args, block := none }

/-- `Construct::else_block`: `else <block>`. -/
def else_block (instr : Parser Instruction) : Parser Instruction :=
  fun i =>
    pbind (Token.maybe_consume_extra i) fun i _ =>
    pbind (Token.else_tok i) fun i _ =>
    pbind (Token.maybe_consume_extra i) fun i _ =>
    block instr i

/-- `Construct::if_else`: `if <instruction> <block> [ else <block> ]`. -/
def if_else (instr : Parser Instruction) : Parser Instruction :=
  fun i =>
    pbind (Token.maybe_consume_extra i) fun i _ =>
    pbind (Token.if_tok i) fun i _ =>
    pbind (Token.maybe_consume_extra i) fun i _ =>
    pbind (instr i) fun i condition =>
    pbind (Token.maybe_consume_extra i) fun i _ =>
    pbind (block instr i) fun i if_body =>
    pbind (popt (else_block instr) i) fun i else_body =>
    .ok i (.ifElseNode condition if_body else_body)

/-- `Construct::audit`: `audit <block>`. -/
def audit (instr : Parser Instruction) : Parser Instruction :=
  fun i =>
    pbind (Token.maybe_consume_extra i) fun i _ =>
    pbind (Token.audit_tok i) fun i _ =>
    pbind (Token.maybe_consume_extra i) fun i _ =>
    pbind (block instr i) fun i blk =>
    .ok i (.auditNode blk)

/-- `Construct::loop_block`: `loop <block>`. -/
def loop_block (instr : Parser Instruction) : Parser Instruction :=
  fun i =>
    pbind (Token.maybe_consume_extra i) fun i _ =>
    pbind (Token.loop_tok i) fun i _ =>
    pbind (Token.maybe_consume_extra i) fun i _ =>
    pbind (block instr i) fun i blk =>
    .ok i (.loopLoop blk)

/-- `Construct::while_block`: `while <instruction> <block>`. -/
def while_block (instr : Parser Instruction) : Parser Instruction :=
  fun i =>
    pbind (Token.maybe_consume_extra i) fun i _ =>
    pbind (Token.while_tok i) fun i _ =>
    pbind (Token.maybe_consume_extra i) fun i _ =>
    pbind (instr i) fun i condition =>
    pbind (Token.maybe_consume_extra i) fun i _ =>
    pbind (block instr i) fun i blk =>
    .ok i (.loopWhile condition blk)

/-- `Construct::for_block`: `for <variable> in <instruction> <block>`. -/
def for_block (instr : Parser Instruction) : Parser Instruction :=
  fun i =>
    pbind (Token.maybe_consume_extra i) fun i _ =>
    pbind (Token.for_tok i) fun i _ =>
    pbind (Token.maybe_consume_extra i) fun i _ =>
    pbind (variableRule i) fun i v =>
    pbind (Token.maybe_consume_extra i) fun i _ =>
    pbind (Token.in_tok i) fun i _ =>
    pbind (Token.maybe_consume_extra i) fun i _ =>
    pbind (instr i) fun i instruction =>
    pbind (Token.maybe_consume_extra i) fun i _ =>
    pbind (block instr i) fun i blk =>
    .ok i (.loopFor v instruction blk)

/-- `Construct::any_loop`: `loop`, `for`, then `while`, in the source's
order. -/
def any_loop (instr : Parser Instruction) : Parser Instruction :=
  altList [loop_block instr, for_block instr, while_block instr]

/-- `Construct::jinko_inst`: `@` then an ordinary function call; the callee
name is resolved against the closed directive set with `unwrap()`, so an
unrecognized name aborts the whole parse (`fatal`). -/
def jinko_inst (instr : Parser Instruction) : Parser Instruction :=
  fun i =>
    pbind (Token.at_sign i) fun i _ =>
    pbind (function_call instr i) fun i fc =>
    match JkInst.from_str fc.name with
    | some inst => .ok i (.jkInstNode inst)
    | none => .fatal

/-- `Construct::path`: the path identifier of an `incl`. -/
def path : Parser (List Char) :=
  fun i =>
    pbind (Token.maybe_consume_extra i) fun i _ =>
    pbind (Token.identifier i) fun i p =>
    pbind (Token.maybe_consume_extra i) fun i _ =>
    .ok i p

/-- `Construct::as_identifier`: an optional `as <alias>` clause. -/
def as_identifier : Parser (Option (List Char)) :=
  fun i =>
    pbind (Token.maybe_consume_extra i) fun i _ =>
    pbind
      (match popt Token.as_tok i with
       | .ok i (some _) =>
         pbind (Token.maybe_consume_extra i) fun i _ =>
         pbind (Token.identifier i) fun i id =>
         .ok i (some id)
       | .ok i none => .ok i (none : Option (List Char))
       | .err => .err
       | .fatal => .fatal) fun i id =>
    pbind (Token.maybe_consume_extra i) fun i _ =>
    .ok i id

/-- `Construct::incl`: `incl <path> [ as <alias> ]`. -/
def incl : Parser Instruction :=
  fun i =>
    pbind (Token.maybe_consume_extra i) fun i _ =>
    pbind (Token.incl_tok i) fun i _ =>
    pbind (path i) fun i p =>
    pbind (as_identifier i) fun i rename =>
    pbind (Token.maybe_consume_extra i) fun i _ =>
    .ok i (.inclNode p rename)

/-- `Construct::type_declaration`: `type <TypeName> ( <typed_arg_list> )`;
the field list rule is the non-empty one, so empty types are rejected. -/
def type_declaration : Parser TypeDec :=
  fun i =>
    pbind (Token.maybe_consume_extra i) fun i _ =>
    pbind (Token._type_tok i) fun i _ =>
    pbind (Token.maybe_consume_extra i) fun i _ =>
    pbind (Token.identifier i) fun i type_name =>
    pbind (Token.maybe_consume_extra i) fun i _ =>
    pbind (args_dec_non_empty i) fun i fields =>
    .ok i { name := type_name, fields := fields }

/-- `Construct::method_caller`: the restricted caller sub-grammar
(deliberately excluding `method_call` itself). -/
def method_caller (instr : Parser Instruction) : Parser Instruction :=
  altList [pmap (function_call instr) FunctionCall.box, variableRule, constant,
    if_else instr, block instr, any_loop instr, jinko_inst instr, audit instr]

/-- `Construct::method_call`: a caller, a dot, then a normal function call;
the caller is not rewritten into the argument list at parse time. -/
def method_call (instr : Parser Instruction) : Parser Instruction :=
  fun i =>
    pbind (method_caller instr i) fun i caller =>
    pbind (Token.dot i) fun i _ =>
    pbind (function_call instr i) fun i method =>
    .ok i (.methodCallNode caller method.box)

/-- `Construct::return_expression`: `return [<instruction>]`, then an
explicit check that the remaining input is empty. -/
def return_expression (instr : Parser Instruction) : Parser Instruction :=
  fun i =>
    pbind (Token.return_tok i) fun i _ =>
    pbind (Token.maybe_consume_extra i) fun i _ =>
    pbind (popt instr i) fun i ret_val =>
    pbind (Token.maybe_consume_extra i) fun i _ =>
    if i = [] then .ok i (.retNode ret_val) else .err

end ConstructP

namespace ShuntingYard

/-- Modelled from the spec: the closed operator set (arithmetic, comparison,
logical, bitwise) with its fixed precedence table (§4.3; the `ShuntingYard`
module is not in the provided sources).  Two-character operators come first
so that the longest token is recognized. -/
def opTable : List (List Char × Nat) :=
  [(['<', '<'], 8), (['>', '>'], 8),
   (['<', '='], 7), (['>', '='], 7),
   (['=', '='], 6), (['!', '='], 6),
   (['&', '&'], 2), (['|', '|'], 1),
   (['*'], 10), (['/'], 10),
   (['+'], 9), (['-'], 9),
   (['<'], 7), (['>'], 7),
   (['&'], 5), (['^'], 4), (['|'], 3)]

/-- Find the first operator of the table at the head of the cursor. -/
def findOp : List (List Char × Nat) → List Char → Option (List Char × List Char × Nat)
  | [], _ => none
  | (op, p) :: rest, j =>
    if op.isPrefixOf j then some (j.drop op.length, op, p) else findOp rest j

/-- Characters that can only start an operator token; an operator-looking
token that is not in the table is a hard failure of the expression parse
(spec §4.3, "an unrecognized operator token anywhere in the run"). -/
def isOpChar (c : Char) : Bool :=
  c = '+' || c = '-' || c = '*' || c = '/' || c = '<' || c = '>' ||
  c = '=' || c = '!' || c = '&' || c = '|' || c = '^' || c = '%' ||
  c = '?' || c = '~'

/-- Does the cursor start with an operator-looking character? -/
def hasOpChar (j : List Char) : Bool :=
  match j with
  | [] => false
  | c :: _ => isOpChar c

mutual

/-- Modelled from the spec: one precedence level of the expression engine —
parse an operand, then fold in every following operator of precedence at
least `minPrec` (left associativity: the recursive level starts one above
the operator just consumed). -/
def parseLevel (operandP : Parser Instruction) : Nat → Nat → Parser Instruction
  | 0, _, _ => .err
  | fuel + 1, minPrec, i =>
    pbind (operandP i) fun i lhs => levelLoop operandP fuel minPrec lhs i

/-- Modelled from the spec: the operator-folding loop of one precedence
level.  No operator at all ends the level (deferring), an operator of lower
precedence is left for an outer level, and an unrecognized operator-looking
token is a hard failure. -/
def levelLoop (operandP : Parser Instruction) :
    Nat → Nat → Instruction → Parser Instruction
  | 0, _, _, _ => .err
  | fuel + 1, minPrec, lhs, i =>
    match findOp opTable (consumeExtra i) with
    | none => if hasOpChar (consumeExtra i) then .err else .ok i lhs
    | some (i2, op, p) =>
      if minPrec ≤ p then
        pbind (parseLevel operandP fuel (p + 1) (consumeExtra i2)) fun i3 rhs =>
          levelLoop operandP fuel minPrec (.binOp op lhs rhs) i3
      else .ok i lhs

end

/-- Modelled from the spec: the operands of a binary-operation run are the
bare calls, variables and constants (§4.2/§4.3). -/
def operand (instr : Parser Instruction) : Parser Instruction :=
  altList [pmap (ConstructP.function_call instr) FunctionCall.box,
    ConstructP.variableRule, ConstructP.constant]

/-- Modelled from the spec: `ShuntingYard::parse` — an operand, then at
least one operator/operand pair (a bare operand is never a one-sided binary
operation and defers to lower-priority alternatives), built into a
precedence-ordered tree. -/
def parse (operandP : Parser Instruction) (fuel : Nat) : Parser Instruction :=
  fun i =>
    pbind (operandP i) fun i1 lhs =>
    match findOp opTable (consumeExtra i1) with
    | none => .err
    | some (i2, op, p) =>
      pbind (parseLevel operandP fuel (p + 1) (consumeExtra i2)) fun i3 rhs =>
      levelLoop operandP fuel 0 (.binOp op lhs rhs) i3

end ShuntingYard

namespace ConstructP

/-- `Construct::binary_op`: delegate to the expression engine; the climbing
fuel is bounded by the input length (one operator per consumed character at
most). -/
def binary_op (instr : Parser Instruction) : Parser Instruction :=
  fun i => ShuntingYard.parse (ShuntingYard.operand instr) (i.length + 1) i

/-- The ordered alternative list of `Construct::instruction`
(`constructs.rs` lines 37-57), in the exact source order. -/
def instructionRules (instr : Parser Instruction) : List (Parser Instruction) :=
  [binary_op instr,
   method_call instr,
   pmap (function_declaration instr) FunctionDec.box,
   pmap type_declaration TypeDec.box,
   pmap ext_declaration FunctionDec.box,
   pmap (test_declaration instr) FunctionDec.box,
   pmap (mock_declaration instr) FunctionDec.box,
   type_instantiation instr,
   pmap (function_call instr) FunctionCall.box,
   incl,
   if_else instr,
   any_loop instr,
   jinko_inst instr,
   audit instr,
   block instr,
   var_assignment instr,
   variableRule,
   return_expression instr,
   constant]

/-- `Construct::instruction`: skip insignificant input, try the ordered
alternatives, skip insignificant input again. -/
def instructionBody (instr : Parser Instruction) : Parser Instruction :=
  fun i =>
    pbind (Token.maybe_consume_extra i) fun i _ =>
    pbind (altList (instructionRules instr) i) fun i value =>
    pbind (Token.maybe_consume_extra i) fun i _ =>
    .ok i value

end ConstructP

namespace Construct

/-- `Construct::instruction`, with fuel bounding the recursion depth that
the Rust original takes on the native call stack; at every recursion level
the body is exactly the source's rule body. -/
def instruction : Nat → Parser Instruction
  | 0 => fun _ => .err
  | fuel + 1 => ConstructP.instructionBody (instruction fuel)

/-- `Construct::binary_op` at recursion depth `fuel`. -/
def binary_op (fuel : Nat) : Parser Instruction :=
  ConstructP.binary_op (instruction fuel)

/-- `Construct::function_call` at recursion depth `fuel`. -/
def function_call (fuel : Nat) : Parser FunctionCall :=
  ConstructP.function_call (instruction fuel)

/-- `Construct::args_list` at recursion depth `fuel`. -/
def args_list (fuel : Nat) : Parser (List Instruction) :=
  ConstructP.args_list (instruction fuel)

/-- `Construct::test_declaration` at recursion depth `fuel`. -/
def test_declaration (fuel : Nat) : Parser FunctionDec :=
  ConstructP.test_declaration (instruction fuel)

/-- `Construct::ext_declaration` (it never calls back into
`Construct::instruction`). -/
def ext_declaration : Parser FunctionDec :=
  ConstructP.ext_declaration

/-- `Construct::type_declaration` (it never calls back into
`Construct::instruction`). -/
def type_declaration : Parser TypeDec :=
  ConstructP.type_declaration

/-- `Construct::block` at recursion depth `fuel`. -/
def block (fuel : Nat) : Parser Instruction :=
  ConstructP.block (instruction fuel)

/-- `Construct::method_call` at recursion depth `fuel`. -/
def method_call (fuel : Nat) : Parser Instruction :=
  ConstructP.method_call (instruction fuel)

/-- `Construct::jinko_inst` at recursion depth `fuel`. -/
def jinko_inst (fuel : Nat) : Parser Instruction :=
  ConstructP.jinko_inst (instruction fuel)

/-- `Construct::return_expression` at recursion depth `fuel`. -/
def return_expression (fuel : Nat) : Parser Instruction :=
  ConstructP.return_expression (instruction fuel)

end Construct

/-! ## General lemmas about the combinators -/

theorem pbind_ok {α β : Type} {r : PResult α} {f : List Char → α → PResult β}
    {rest : List Char} {v : β} (h : pbind r f = .ok rest v) :
    ∃ r1 v1, r = .ok r1 v1 ∧ f r1 v1 = .ok rest v := by
  cases r with
  | ok a b => exact ⟨a, b, rfl, h⟩
  | err => simp [pbind] at h
  | fatal => simp [pbind] at h

theorem many0_ok_stop {α : Type} {p : Parser α} {n : Nat} {i rest : List Char}
    {vs : List α} (h : many0 p n i = .ok rest vs) : p rest = .err := by
  induction n generalizing i vs with
  | zero => simp [many0] at h
  | succ n ih =>
    rw [many0] at h
    dsimp only at h
    cases hp : p i with
    | err =>
      rw [hp] at h
      cases h
      exact hp
    | fatal => rw [hp] at h; cases h
    | ok r v =>
      rw [hp] at h
      by_cases hri : r = i
      · simp [hri] at h
      · simp only [if_neg hri] at h
        cases hm : many0 p n r with
        | ok rest2 vs2 => rw [hm] at h; cases h; exact ih hm
        | err => rw [hm] at h; cases h
        | fatal => rw [hm] at h; cases h

theorem altList_append_err {α : Type} {ps : List (Parser α)} (qs : List (Parser α))
    {i : List Char} (h : ∀ p ∈ ps, p i = .err) :
    altList (ps ++ qs) i = altList qs i := by
  induction ps with
  | nil => rfl
  | cons p ps ih =>
    have hp : p i = .err := h p (by simp)
    show altList (p :: (ps ++ qs)) i = _
    rw [altList]
    dsimp only
    rw [hp]
    exact ih (fun q hq => h q (by simp [hq]))

theorem consumeExtra_idem (i : List Char) : consumeExtra (consumeExtra i) = consumeExtra i := by
  induction i with
  | nil => rfl
  | cons c cs ih =>
    by_cases hc : isSpaceChar c
    · simpa [consumeExtra, List.dropWhile_cons, hc] using ih
    · simp [consumeExtra, List.dropWhile_cons, hc]

/-- `Construct::instruction` begins by skipping insignificant input, so it
absorbs an explicit leading skip. -/
theorem instruction_ws_absorb (f : Nat) (i : List Char) :
    Construct.instruction f (consumeExtra i) = Construct.instruction f i := by
  cases f with
  | zero => rfl
  | succ f =>
    show ConstructP.instructionBody _ _ = ConstructP.instructionBody _ _
    simp [ConstructP.instructionBody, Token.maybe_consume_extra, pbind, consumeExtra_idem]

/-- `Construct::instruction` ends by skipping insignificant input, so its
remaining cursor carries no leading whitespace. -/
theorem instruction_rest_norm {f : Nat} {i rest : List Char} {v : Instruction}
    (h : Construct.instruction f i = .ok rest v) : consumeExtra rest = rest := by
  cases f with
  | zero => simp [Construct.instruction] at h
  | succ f =>
    rw [show Construct.instruction (f + 1) = ConstructP.instructionBody (Construct.instruction f)
      from rfl] at h
    simp only [ConstructP.instructionBody, Token.maybe_consume_extra, pbind] at h
    obtain ⟨r1, v1, h1, h2⟩ := pbind_ok h
    cases h2
    exact consumeExtra_idem r1

theorem pbind_ok_apply {α β : Type} (rest : List Char) (v : α)
    (f : List Char → α → PResult β) : pbind (.ok rest v) f = f rest v := rfl

theorem altList_drop_err {α : Type} (n : Nat) {rules : List (Parser α)} {j : List Char}
    (h : ∀ p ∈ rules.take n, p j = .err) :
    altList rules j = altList (rules.drop n) j := by
  conv_lhs => rw [← List.take_append_drop n rules]
  exact altList_append_err _ h

/-- Every success of `Construct::args_list` leaves a cursor at which a comma
cannot be read: had the final argument been followed by a separator, the
greedy `many0 (arg_and_comma)` loop would have consumed it. -/
theorem args_list_rest_comma_err {f : Nat} {i q : List Char} {vs : List Instruction}
    (h : ConstructP.args_list (Construct.instruction f) i = .ok q vs) :
    Token.comma q = .err := by
  simp only [ConstructP.args_list] at h
  obtain ⟨m, vs0, hm, h⟩ := pbind_ok h
  obtain ⟨q0, lastv, hl, h⟩ := pbind_ok h
  cases h
  have hstop : ConstructP.arg_and_comma (Construct.instruction f) m = .err := many0_ok_stop hm
  simp only [ConstructP.arg, Token.maybe_consume_extra, pbind_ok_apply] at hl
  obtain ⟨m2, c2, hi, hl⟩ := pbind_ok hl
  cases hl
  rw [instruction_ws_absorb] at hi
  have hnorm : consumeExtra m2 = m2 := instruction_rest_norm hi
  simp only [ConstructP.arg_and_comma, hi, pbind_ok_apply] at hstop
  rw [hnorm]
  cases hc : Token.comma m2 with
  | ok a b => rw [hc, pbind_ok_apply] at hstop; cases hstop
  | err => rfl
  | fatal => rw [hc] at hstop; cases hstop

/-! ## Lexical lemmas for the precedence claim -/

theorem ident_char_of_digit {c : Char} (h : c.isDigit = true) : isIdentChar c = true := by
  simp [isIdentChar, Char.isAlphanum, h]

theorem not_space_of_digit {c : Char} (h : c.isDigit = true) : isSpaceChar c = false := by
  by_contra hs
  rw [Bool.not_eq_false] at hs
  simp only [isSpaceChar, Bool.or_eq_true, decide_eq_true_eq] at hs
  rcases hs with ((rfl | rfl) | rfl) | rfl <;> exact absurd h (by decide)

theorem takeWhile_all {p : Char → Bool} {l : List Char} (h : ∀ x ∈ l, p x = true) :
    l.takeWhile p = l := by
  induction l with
  | nil => rfl
  | cons a as ih =>
    simp [List.takeWhile_cons, h a (by simp), ih (fun x hx => h x (by simp [hx]))]

theorem takeWhile_append_of_all {p : Char → Bool} {l1 : List Char} {c : Char}
    {l2 : List Char} (h1 : ∀ x ∈ l1, p x = true) (h2 : p c = false) :
    (l1 ++ c :: l2).takeWhile p = l1 := by
  induction l1 with
  | nil => simp [List.takeWhile_cons, h2]
  | cons a as ih =>
    simp [List.takeWhile_cons, h1 a (by simp), ih (fun x hx => h1 x (by simp [hx]))]

theorem consumeExtra_cons_of_not_space {a : Char} {l : List Char}
    (h : isSpaceChar a = false) : consumeExtra (a :: l) = a :: l := by
  simp [consumeExtra, List.dropWhile_cons, h]

theorem consumeExtra_space (l : List Char) : consumeExtra (' ' :: l) = consumeExtra l := by
  simp [consumeExtra, List.dropWhile_cons, show isSpaceChar ' ' = true from rfl]

theorem identifier_before {sa : List Char} {c : Char} {rest : List Char} (ha : sa ≠ [])
    (h1 : ∀ x ∈ sa, isIdentChar x = true) (h2 : isIdentChar c = false) :
    Token.identifier (sa ++ c :: rest) = .ok (c :: rest) sa := by
  have hemp : sa.isEmpty = false := by cases sa with | nil => cases ha rfl | cons a as => rfl
  simp only [Token.identifier, takeWhile_append_of_all h1 h2, hemp, List.drop_left,
    Bool.false_eq_true, if_false]

theorem identifier_exact {sa : List Char} (ha : sa ≠ [])
    (h1 : ∀ x ∈ sa, isIdentChar x = true) :
    Token.identifier sa = .ok [] sa := by
  have hemp : sa.isEmpty = false := by cases sa with | nil => cases ha rfl | cons a as => rfl
  simp only [Token.identifier, takeWhile_all h1, hemp, List.drop_length,
    Bool.false_eq_true, if_false]

/-- When the cursor holds a bare identifier not followed by `(`, the
expression engine's operand parser produces a `Var` node. -/
theorem operand_ident (instr : Parser Instruction) {i rest sa : List Char}
    (hid : Token.identifier i = .ok rest sa)
    (hlp : Token.left_parenthesis rest = .err) :
    ShuntingYard.operand instr i = .ok rest (.var sa) := by
  simp [ShuntingYard.operand, altList, pmap, ConstructP.function_call,
    ConstructP.function_call_no_args, ConstructP.function_call_args,
    ConstructP.variableRule, pbind, hid, hlp]

/-! ## Step lemmas for the expression engine -/

theorem parseLevel_eq (operandP : Parser Instruction) (fuel minPrec : Nat)
    (i : List Char) :
    ShuntingYard.parseLevel operandP (fuel + 1) minPrec i =
      pbind (operandP i) fun j lhs => ShuntingYard.levelLoop operandP fuel minPrec lhs j := by
  simp [ShuntingYard.parseLevel]

theorem levelLoop_op {i i2 op : List Char} {p : Nat}
    (operandP : Parser Instruction) (fuel minPrec : Nat) (lhs : Instruction)
    (hfo : ShuntingYard.findOp ShuntingYard.opTable (consumeExtra i) = some (i2, op, p))
    (hp : minPrec ≤ p) :
    ShuntingYard.levelLoop operandP (fuel + 1) minPrec lhs i =
      pbind (ShuntingYard.parseLevel operandP fuel (p + 1) (consumeExtra i2)) fun i3 rhs =>
        ShuntingYard.levelLoop operandP fuel minPrec (.binOp op lhs rhs) i3 := by
  simp [ShuntingYard.levelLoop, hfo, hp]

theorem levelLoop_end (operandP : Parser Instruction)
    (fuel minPrec : Nat) (lhs : Instruction) (i : List Char)
    (hfo : ShuntingYard.findOp ShuntingYard.opTable (consumeExtra i) = none)
    (hoc : ShuntingYard.hasOpChar (consumeExtra i) = false) :
    ShuntingYard.levelLoop operandP (fuel + 1) minPrec lhs i = .ok i lhs := by
  simp [ShuntingYard.levelLoop, hfo, hoc]

theorem parse_op {operandP : Parser Instruction} {fuel : Nat} {i i1 : List Char}
    {lhs : Instruction} {i2 op : List Char} {p : Nat}
    (hop : operandP i = .ok i1 lhs)
    (hfo : ShuntingYard.findOp ShuntingYard.opTable (consumeExtra i1) = some (i2, op, p)) :
    ShuntingYard.parse operandP fuel i =
      pbind (ShuntingYard.parseLevel operandP fuel (p + 1) (consumeExtra i2)) fun i3 rhs =>
        ShuntingYard.levelLoop operandP fuel 0 (.binOp op lhs rhs) i3 := by
  simp [ShuntingYard.parse, hop, hfo, pbind]

/-- The `* `-tail of the precedence claim: at level 10, an operand, `*`, and
a final operand build the multiplication node and stop at end of input. -/
theorem parseLevel_mul_run (operandP : Parser Instruction) (fuel : Nat)
    (sb sc : List Char)
    (hopb : operandP (sb ++ ' ' :: '*' :: ' ' :: sc) = .ok (' ' :: '*' :: ' ' :: sc) (.var sb))
    (hopc : operandP sc = .ok [] (.var sc))
    (hsc : consumeExtra sc = sc) :
    ShuntingYard.parseLevel operandP (fuel + 1 + 1 + 1 + 1) 10 (sb ++ ' ' :: '*' :: ' ' :: sc) =
      .ok [] (.binOp ['*'] (.var sb) (.var sc)) := by
  rw [parseLevel_eq, hopb, pbind_ok_apply]
  rw [levelLoop_op operandP (fuel + 1 + 1) 10 (.var sb)
    (show ShuntingYard.findOp ShuntingYard.opTable
      (consumeExtra (' ' :: '*' :: ' ' :: sc)) = some (' ' :: sc, ['*'], 10) from rfl)
    (le_refl 10)]
  rw [show consumeExtra (' ' :: sc) = sc from (consumeExtra_space sc).trans hsc]
  rw [parseLevel_eq, hopc, pbind_ok_apply]
  rw [levelLoop_end operandP fuel 11 (.var sc) [] rfl rfl, pbind_ok_apply]
  rw [levelLoop_end operandP (fuel + 1) 10 _ [] rfl rfl]

theorem consumeExtra_eq_of_not_space {l : List Char} (hl : l ≠ [])
    (hall : ∀ c ∈ l, isSpaceChar c = false) : consumeExtra l = l := by
  cases l with
  | nil => cases hl rfl
  | cons a as => exact consumeExtra_cons_of_not_space (hall a (by simp))

theorem consumeExtra_append_eq {l r : List Char} (hl : l ≠ [])
    (hall : ∀ c ∈ l, isSpaceChar c = false) : consumeExtra (l ++ r) = l ++ r := by
  cases l with
  | nil => cases hl rfl
  | cons a as =>
    rw [List.cons_append, consumeExtra_cons_of_not_space (hall a (by simp)),
      ← List.cons_append]

/-! ## The claims -/

/-- C1: the top-level instruction alternation never observes a cursor
advance from a failed alternative: whenever the first `k + 1` alternatives of
`Construct::instruction` all fail at the post-skip cursor, the whole rule is
exactly the alternation of the remaining alternatives run from that same
pre-rule cursor (followed by the rule's trailing skip). -/
theorem claim_C1 (f k : Nat) (i : List Char)
    (h : ∀ p ∈ (ConstructP.instructionRules (Construct.instruction f)).take (k + 1),
      p (consumeExtra i) = .err) :
    Construct.instruction (f + 1) i =
      pbind (altList ((ConstructP.instructionRules (Construct.instruction f)).drop (k + 1))
          (consumeExtra i))
        (fun rest v => .ok (consumeExtra rest) v) := by
  show ConstructP.instructionBody (Construct.instruction f) i = _
  simp only [ConstructP.instructionBody, Token.maybe_consume_extra, pbind_ok_apply]
  rw [altList_drop_err (k + 1) h]

/-- C1 witness: with the first alternative (`binary_op`) failing on
`@dump()`, the instruction rule is the remaining alternation run from the
pre-rule cursor. -/
theorem claim_C1_witness :
    Construct.instruction 2 "@dump()".toList =
      pbind (altList ((ConstructP.instructionRules (Construct.instruction 1)).drop 1)
          (consumeExtra "@dump()".toList))
        (fun rest v => .ok (consumeExtra rest) v) :=
  claim_C1 1 0 "@dump()".toList (by
    intro p hp
    rw [show (ConstructP.instructionRules (Construct.instruction 1)).take 1 =
      [ConstructP.binary_op (Construct.instruction 1)] from rfl, List.mem_singleton] at hp
    subst hp
    rfl)

/-- C3: `fn()` and `fn(    )` parse with zero arguments, `fn(1, 2, 3)` with
three, `fn(1, 2, 3, 4,)` (trailing comma) is a parse failure, and whenever
`Construct::function_call` succeeds with a non-empty argument list, the
arguments come from `args_list` at a cursor where the last argument is
followed by the closing parenthesis and not by a comma. -/
theorem claim_C3 :
    Construct.function_call 1 "fn()".toList = .ok [] { name := "fn".toList, args := [] } ∧
    Construct.function_call 1 "fn(    )".toList = .ok [] { name := "fn".toList, args := [] } ∧
    Construct.function_call 1 "fn(1, 2, 3)".toList =
      .ok [] { name := "fn".toList, args := [.var ['1'], .var ['2'], .var ['3']] } ∧
    Construct.function_call 1 "fn(1, 2, 3, 4,)".toList = .err ∧
    (∀ (f : Nat) (i rest : List Char) (fc : FunctionCall),
      Construct.function_call f i = .ok rest fc → fc.args ≠ [] →
      ∃ i1 q, ConstructP.args_list (Construct.instruction f) i1 = .ok q fc.args ∧
        Token.comma q = .err ∧ Token.right_parenthesis q = .ok rest ()) := by
  refine ⟨rfl, rfl, rfl, rfl, ?_⟩
  intro f i rest fc h hne
  simp only [Construct.function_call, ConstructP.function_call, altList] at h
  cases hna : ConstructP.function_call_no_args i with
  | ok rna vna =>
    rw [hna] at h
    simp only at h
    cases h
    exfalso
    apply hne
    simp only [ConstructP.function_call_no_args] at hna
    obtain ⟨b1, w1, g1, hna⟩ := pbind_ok hna
    obtain ⟨b2, w2, g2, hna⟩ := pbind_ok hna
    obtain ⟨b3, w3, g3, hna⟩ := pbind_ok hna
    obtain ⟨b4, w4, g4, hna⟩ := pbind_ok hna
    cases hna
    rfl
  | fatal => rw [hna] at h; simp at h
  | err =>
    rw [hna] at h
    simp only at h
    cases hfa : ConstructP.function_call_args (Construct.instruction f) i with
    | err => rw [hfa] at h; simp [altList] at h
    | fatal => rw [hfa] at h; simp at h
    | ok rfa vfa =>
      rw [hfa] at h
      simp only at h
      cases h
      simp only [ConstructP.function_call_args] at hfa
      obtain ⟨a1, fn_id, e1, hfa⟩ := pbind_ok hfa
      obtain ⟨a2, u2, e2, hfa⟩ := pbind_ok hfa
      obtain ⟨a3, argv, e3, hfa⟩ := pbind_ok hfa
      obtain ⟨a4, u4, e4, hfa⟩ := pbind_ok hfa
      cases hfa
      exact ⟨a2, a3, e3, args_list_rest_comma_err e3, e4⟩

/-- C3 witness: the universal part of C3 applied to the concrete accepted
input `fn(1)`. -/
theorem claim_C3_witness :
    ∃ i1 q, ConstructP.args_list (Construct.instruction 1) i1 =
        .ok q ({ name := "fn".toList, args := [.var ['1']] } : FunctionCall).args ∧
      Token.comma q = .err ∧ Token.right_parenthesis q = .ok [] () :=
  claim_C3.2.2.2.2 1 "fn(1)".toList [] { name := "fn".toList, args := [.var ['1']] }
    rfl (by simp)

/-- C2: the spec (and the rule's own grammar comment
`<test> <identifier> ( ) <block>`) says a test declaration never accepts
arguments, but `Construct::test_declaration` parses its argument list with
the general `args_dec` rule: `test add(a: int) {}` is accepted with one
argument (and kind `Test`, no return type). -/
theorem claim_C2 :
    Construct.test_declaration 1 ("test add(a: int) ".toList ++ ['{', '}']) =
      .ok [] { name := "add".toList, ty := none, kind := .Test,
               args := [{ name := "a".toList, ty := "int".toList }],
               block := some (.blockNode [] none) } := rfl

/-- C4: a successful `Construct::ext_declaration` always has kind `Ext` and
no body block; `ext func add(a: int) -> int {}` is a parse failure, and
`ext func add(lhs: ty, rhs: ty);` succeeds with kind `Ext`, no return type,
and no body. -/
theorem claim_C4 :
    (∀ (i rest : List Char) (fd : FunctionDec),
      Construct.ext_declaration i = .ok rest fd → fd.kind = .Ext ∧ fd.block = none) ∧
    Construct.ext_declaration ("ext func add(a: int) -> int ".toList ++ ['{', '}']) = .err ∧
    Construct.ext_declaration "ext func add(lhs: ty, rhs: ty);".toList =
      .ok [] { name := "add".toList, ty := none, kind := .Ext,
               args := [{ name := "lhs".toList, ty := "ty".toList },
                        { name := "rhs".toList, ty := "ty".toList }], block := none } := by
  refine ⟨?_, rfl, rfl⟩
  intro i rest fd h
  simp only [Construct.ext_declaration, ConstructP.ext_declaration] at h
  obtain ⟨r1, v1, h1, h⟩ := pbind_ok h
  obtain ⟨r2, v2, h2, h⟩ := pbind_ok h
  obtain ⟨r3, v3, h3, h⟩ := pbind_ok h
  obtain ⟨r4, v4, h4, h⟩ := pbind_ok h
  obtain ⟨r5, v5, h5, h⟩ := pbind_ok h
  obtain ⟨r6, v6, h6, h⟩ := pbind_ok h
  obtain ⟨r7, v7, h7, h⟩ := pbind_ok h
  obtain ⟨r8, v8, h8, h⟩ := pbind_ok h
  obtain ⟨r9, v9, h9, h⟩ := pbind_ok h
  obtain ⟨r10, v10, h10, h⟩ := pbind_ok h
  cases h
  exact ⟨rfl, rfl⟩

/-- C4 witness: the universal part of C4 applied to the concrete accepted
input `ext func add(lhs: ty, rhs: ty);`. -/
theorem claim_C4_witness :
    ({ name := "add".toList, ty := none, kind := .Ext,
       args := [{ name := "lhs".toList, ty := "ty".toList },
                { name := "rhs".toList, ty := "ty".toList }],
       block := none } : FunctionDec).kind = .Ext ∧
    ({ name := "add".toList, ty := none, kind := .Ext,
       args := [{ name := "lhs".toList, ty := "ty".toList },
                { name := "rhs".toList, ty := "ty".toList }],
       block := none } : FunctionDec).block = none :=
  claim_C4.1 "ext func add(lhs: ty, rhs: ty);".toList [] _ rfl

/-- C5: `type Empty();` is a parse failure (no empty types),
`type Int(v: int);` succeeds with exactly one field (the rule itself leaves
the `;`), `type Ints(a: int, b: int,);` (trailing comma) is a parse failure,
and every successful `Construct::type_declaration` yields a non-empty field
list. -/
theorem claim_C5 :
    Construct.type_declaration "type Empty();".toList = .err ∧
    Construct.type_declaration "type Int(v: int);".toList =
      .ok [';'] { name := "Int".toList, fields := [{ name := "v".toList, ty := "int".toList }] } ∧
    Construct.type_declaration "type Ints(a: int, b: int,);".toList = .err ∧
    (∀ (i rest : List Char) (td : TypeDec),
      Construct.type_declaration i = .ok rest td → td.fields ≠ []) := by
  refine ⟨rfl, rfl, rfl, ?_⟩
  intro i rest td h
  simp only [Construct.type_declaration, ConstructP.type_declaration] at h
  obtain ⟨r1, v1, h1, h⟩ := pbind_ok h
  obtain ⟨r2, v2, h2, h⟩ := pbind_ok h
  obtain ⟨r3, v3, h3, h⟩ := pbind_ok h
  obtain ⟨r4, v4, h4, h⟩ := pbind_ok h
  obtain ⟨r5, v5, h5, h⟩ := pbind_ok h
  obtain ⟨r6, v6, h6, h⟩ := pbind_ok h
  cases h
  simp only [ConstructP.args_dec_non_empty] at h6
  obtain ⟨s1, w1, g1, h6⟩ := pbind_ok h6
  obtain ⟨s2, w2, g2, h6⟩ := pbind_ok h6
  obtain ⟨s3, w3, g3, h6⟩ := pbind_ok h6
  obtain ⟨s4, w4, g4, h6⟩ := pbind_ok h6
  obtain ⟨s5, w5, g5, h6⟩ := pbind_ok h6
  obtain ⟨s6, w6, g6, h6⟩ := pbind_ok h6
  cases h6
  simp

/-- C5 witness: the universal part of C5 applied to the concrete accepted
input `type Int(v: int);`. -/
theorem claim_C5_witness :
    ({ name := "Int".toList,
       fields := [{ name := "v".toList, ty := "int".toList }] } : TypeDec).fields ≠ [] :=
  claim_C5.2.2.2 "type Int(v: int);".toList [';'] _ rfl

/-- C6: `{}` parses to a block with no statements and no trailing value;
`{ 12; 14 }` parses to one statement plus a trailing value; every successful
`Construct::block` result is a `blockNode` whose optional trailing value sits
in its own final field (so no statement can follow it); and a missing
closing brace or an unterminated inner statement is a parse failure
returning no partial block. -/
theorem claim_C6 :
    Construct.block 1 ['{', '}'] = .ok [] (.blockNode [] none) ∧
    Construct.block 2 ['{', ' ', '1', '2', ';', ' ', '1', '4', ' ', '}'] =
      .ok [] (.blockNode [.var ['1', '2']] (some (.var ['1', '4']))) ∧
    (∀ (f : Nat) (i rest : List Char) (v : Instruction),
      Construct.block f i = .ok rest v →
      ∃ stmts lastVal, v = .blockNode stmts lastVal) ∧
    Construct.block 2 ['{', ' ', '1', '2', ';', ' ', '1', '4'] = .err ∧
    Construct.block 2 ['{', ' ', '1', '2', ' ', '1', '4', ' ', '}'] = .err := by
  refine ⟨rfl, rfl, ?_, rfl, rfl⟩
  intro f i rest v h
  simp only [Construct.block, ConstructP.block] at h
  obtain ⟨r1, v1, h1, h⟩ := pbind_ok h
  cases h
  exact ⟨v1.1, v1.2, rfl⟩

/-- C6 witness: the universal part of C6 applied to the concrete accepted
input `{ 12; 14 }`. -/
theorem claim_C6_witness :
    ∃ stmts lastVal,
      (Instruction.blockNode [.var ['1', '2']] (some (.var ['1', '4']))) =
        .blockNode stmts lastVal :=
  claim_C6.2.2.1 2 ['{', ' ', '1', '2', ';', ' ', '1', '4', ' ', '}'] [] _ rfl

/-- C7: for every numeric-literal expression `a + b * c` (arbitrary
non-empty digit runs), `Construct::binary_op` builds the tree with the
addition at the root and the multiplication as its right child —
multiplication binds tighter than addition. -/
theorem claim_C7 (f : Nat) (sa sb sc : List Char)
    (ha : sa ≠ []) (hb : sb ≠ []) (hc : sc ≠ [])
    (da : ∀ c ∈ sa, c.isDigit = true) (db : ∀ c ∈ sb, c.isDigit = true)
    (dc : ∀ c ∈ sc, c.isDigit = true) :
    Construct.binary_op f (sa ++ ' ' :: '+' :: ' ' :: (sb ++ ' ' :: '*' :: ' ' :: sc)) =
      .ok [] (.binOp ['+'] (.var sa) (.binOp ['*'] (.var sb) (.var sc))) := by
  have ia : ∀ c ∈ sa, isIdentChar c = true := fun c hcm => ident_char_of_digit (da c hcm)
  have ib : ∀ c ∈ sb, isIdentChar c = true := fun c hcm => ident_char_of_digit (db c hcm)
  have ic : ∀ c ∈ sc, isIdentChar c = true := fun c hcm => ident_char_of_digit (dc c hcm)
  have sb_ns : ∀ c ∈ sb, isSpaceChar c = false := fun c hcm => not_space_of_digit (db c hcm)
  have sc_ns : ∀ c ∈ sc, isSpaceChar c = false := fun c hcm => not_space_of_digit (dc c hcm)
  have hopa : ShuntingYard.operand (Construct.instruction f)
      (sa ++ ' ' :: '+' :: ' ' :: (sb ++ ' ' :: '*' :: ' ' :: sc)) =
      .ok (' ' :: '+' :: ' ' :: (sb ++ ' ' :: '*' :: ' ' :: sc)) (.var sa) :=
    operand_ident _ (identifier_before ha ia (by decide)) rfl
  have hopb : ShuntingYard.operand (Construct.instruction f)
      (sb ++ ' ' :: '*' :: ' ' :: sc) = .ok (' ' :: '*' :: ' ' :: sc) (.var sb) :=
    operand_ident _ (identifier_before hb ib (by decide)) rfl
  have hopc : ShuntingYard.operand (Construct.instruction f) sc = .ok [] (.var sc) :=
    operand_ident _ (identifier_exact hc ic) rfl
  have hsc : consumeExtra sc = sc := consumeExtra_eq_of_not_space hc sc_ns
  show ShuntingYard.parse (ShuntingYard.operand (Construct.instruction f))
      ((sa ++ ' ' :: '+' :: ' ' :: (sb ++ ' ' :: '*' :: ' ' :: sc)).length + 1)
      (sa ++ ' ' :: '+' :: ' ' :: (sb ++ ' ' :: '*' :: ' ' :: sc)) = _
  rw [parse_op hopa
    (show ShuntingYard.findOp ShuntingYard.opTable
        (consumeExtra (' ' :: '+' :: ' ' :: (sb ++ ' ' :: '*' :: ' ' :: sc))) =
      some (' ' :: (sb ++ ' ' :: '*' :: ' ' :: sc), ['+'], 9) from rfl)]
  rw [show consumeExtra (' ' :: (sb ++ ' ' :: '*' :: ' ' :: sc)) =
      sb ++ ' ' :: '*' :: ' ' :: sc from
    (consumeExtra_space _).trans (consumeExtra_append_eq hb sb_ns)]
  rw [show (sa ++ ' ' :: '+' :: ' ' :: (sb ++ ' ' :: '*' :: ' ' :: sc)).length + 1 =
      ((sa ++ ' ' :: '+' :: ' ' :: (sb ++ ' ' :: '*' :: ' ' :: sc)).length - 3)
        + 1 + 1 + 1 + 1 by
    have h3 : 3 ≤ (sa ++ ' ' :: '+' :: ' ' :: (sb ++ ' ' :: '*' :: ' ' :: sc)).length := by
      simp only [List.length_append, List.length_cons]
      omega
    omega]
  rw [parseLevel_mul_run _ _ _ _ hopb hopc hsc, pbind_ok_apply]
  rw [levelLoop_end _ _ 0 _ [] rfl rfl]

/-- C7 witness: C7 applied to the concrete input `1 + 2 * 3`. -/
theorem claim_C7_witness :
    Construct.binary_op 0 (['1'] ++ ' ' :: '+' :: ' ' :: (['2'] ++ ' ' :: '*' :: ' ' :: ['3'])) =
      .ok [] (.binOp ['+'] (.var ['1']) (.binOp ['*'] (.var ['2']) (.var ['3']))) :=
  claim_C7 0 ['1'] ['2'] ['3'] (by decide) (by decide) (by decide)
    (by decide) (by decide) (by decide)

/-- C8: `Construct::method_call` consumes exactly one trailing `.method()`
application: on `1.double().double()` it succeeds consuming only the first
`.double()`, leaving the second `.double()` as unconsumed input, and the
resulting node contains only the single call. -/
theorem claim_C8 :
    Construct.method_call 1 "1.double().double()".toList =
      .ok ".double()".toList
        (.methodCallNode (.var ['1']) (.functionCallNode "double".toList [])) := rfl

/-- C9: an unrecognized interpreter directive aborts the parse
irrecoverably: on `@foo()` (with `foo` outside the closed directive set) the
public `Construct::instruction` rule reaches the `unwrap()` panic of
`Construct::jinko_inst` instead of returning a structured error. -/
theorem claim_C9 : Construct.instruction 1 "@foo()".toList = .fatal := rfl

/-- C10: `Construct::return_expression` succeeds only at end of input —
every success has an empty remaining cursor — while `return` and `return 1`
at end of input succeed, and a return followed by further text (here a
closing brace) fails. -/
theorem claim_C10 :
    (∀ (f : Nat) (i rest : List Char) (v : Instruction),
      Construct.return_expression f i = .ok rest v → rest = []) ∧
    Construct.return_expression 1 "return".toList = .ok [] (.retNode none) ∧
    Construct.return_expression 1 "return 1".toList = .ok [] (.retNode (some (.var ['1']))) ∧
    Construct.return_expression 1 ("return 1 ".toList ++ ['}']) = .err := by
  refine ⟨?_, rfl, rfl, rfl⟩
  intro f i rest v h
  simp only [Construct.return_expression, ConstructP.return_expression] at h
  obtain ⟨r1, v1, h1, h⟩ := pbind_ok h
  obtain ⟨r2, v2, h2, h⟩ := pbind_ok h
  obtain ⟨r3, v3, h3, h⟩ := pbind_ok h
  obtain ⟨r4, v4, h4, h⟩ := pbind_ok h
  split at h
  · cases h; assumption
  · cases h

/-- C10 witness: the universal part of C10 applied to the concrete accepted
input `return`. -/
theorem claim_C10_witness :
    Construct.return_expression 1 "return".toList = .ok [] (.retNode none) ∧
    ([] : List Char) = [] :=
  ⟨rfl, claim_C10.1 1 "return".toList [] (.retNode none) rfl⟩

end Broccoli
